import Mathlib

/-
Verification of the Gemini exchange client (rotkehlchen/exchanges/gemini.py and
rotkehlchen/constants/timing.py).

A shallow embedding: Python exceptions become Except values, the untyped JSON
records become structures whose fields record the outcome of a dict lookup plus
deserialization (missing key / malformed value / parsed value), arbitrary
precision decimals become rationals, and the network is a caller-supplied pure
function from request parameters to responses.  The asset registry is an
external collaborator of the code under verification and is therefore a
parameter (an AssetDB).  While-loops that are not structurally terminating
(pagination) take explicit fuel and return none when the fuel runs out, so
non-termination of the source loop is observable as "none for every fuel".
-/

namespace GeminiSpec

/-- The exception kinds that can cross the boundaries of the gemini module:
UnprocessableTradePair, UnknownAsset, UnsupportedAsset, DeserializationError,
KeyError and RemoteError. -/
inductive GErr where
  | unprocessablePair (pair : String)
  | unknownAsset (name : String)
  | unsupportedAsset (name : String)
  | deserializationError
  | keyError
  | remoteError (msg : String)
  deriving DecidableEq

/-- Outcome of resolving an identifier in the external asset registry. -/
inductive AssetStatus where
  | known
  | unknown
  | unsupported
  deriving DecidableEq

/-- The asset registry collaborator: which identifiers resolve. -/
def AssetDB : Type := String → AssetStatus

/-- Modelled from the spec: the asset-resolution capability
resolve(symbol) -> Asset | fails(UnknownAsset|UnsupportedAsset); the Asset
constructor itself is outside the two source files.  A successfully resolved
asset is represented by its identifier string. -/
def Asset (db : AssetDB) (s : String) : Except GErr String :=
  match db s with
  | .known => .ok s
  | .unknown => .error (.unknownAsset s)
  | .unsupported => .error (.unsupportedAsset s)

/-- Outcome of reading one field of a raw venue record: the dict lookup can
raise KeyError, the deserializer can raise DeserializationError, or the value
parses. -/
inductive FieldR (α : Type) where
  | missing
  | malformed
  | ok (v : α)
  deriving DecidableEq

/-- Reading a field: missing key raises KeyError, a malformed value raises
DeserializationError. -/
def getField {α : Type} : FieldR α → Except GErr α
  | .missing => .error .keyError
  | .malformed => .error .deserializationError
  | .ok v => .ok v

/-- Python slicing symbol[:k], character-based (String.take is byte-position
based, which the kernel cannot evaluate). -/
def strTake (s : String) (k : Nat) : String := ⟨s.data.take k⟩

/-- Python slicing symbol[k:], character-based. -/
def strDrop (s : String) (k : Nat) : String := ⟨s.data.drop k⟩

/-- Python str.upper, character-based. -/
def strUpper (s : String) : String := ⟨s.data.map Char.toUpper⟩

/-- Python str.lower, character-based. -/
def strLower (s : String) : String := ⟨s.data.map Char.toLower⟩

/-- Does the character list hay start with pat? -/
def charsStartWith : List Char → List Char → Bool
  | _, [] => true
  | [], _ :: _ => false
  | h :: t, p :: ps => h == p && charsStartWith t ps

/-- Does the character list hay contain pat as a contiguous run? -/
def charsContain : List Char → List Char → Bool
  | [], pat => charsStartWith [] pat
  | h :: t, pat => charsStartWith (h :: t) pat || charsContain t pat

/-- Python's substring test: pat in hay. -/
def strContains (hay pat : String) : Bool := charsContain hay.data pat.data

/-- gemini_symbol_to_pair (gemini.py lines 56-82).  Turns a gemini symbol
product into the trade pair format; the result models
f-string base.identifier_quote.identifier. -/
def gemini_symbol_to_pair (db : AssetDB) (symbol : String) : Except GErr String :=
  if symbol.length == 6 then do
    let base_asset ← Asset db (strUpper (strTake symbol 3))
    let quote_asset ← Asset db (strUpper (strDrop symbol 3))
    pure (base_asset ++ "_" ++ quote_asset)
  else if symbol.length == 7 then
    match (do
      let base_asset ← Asset db (strUpper (strTake symbol 4))
      let quote_asset ← Asset db (strUpper (strDrop symbol 4))
      pure (base_asset ++ "_" ++ quote_asset) : Except GErr String) with
    | .ok p => .ok p
    | .error (.unknownAsset _) => do
      let base_asset ← Asset db (strUpper (strTake symbol 3))
      let quote_asset ← Asset db (strUpper (strDrop symbol 3))
      pure (base_asset ++ "_" ++ quote_asset)
    | .error e => .error e
  else if symbol.length == 8 then
    if strContains symbol "storj" then do
      let base_asset ← Asset db (strUpper (strTake symbol 5))
      let quote_asset ← Asset db (strUpper (strDrop symbol 5))
      pure (base_asset ++ "_" ++ quote_asset)
    else do
      let base_asset ← Asset db (strUpper (strTake symbol 4))
      let quote_asset ← Asset db (strUpper (strDrop symbol 4))
      pure (base_asset ++ "_" ++ quote_asset)
  else
    .error (.unprocessablePair symbol)

/-- Specification-side description of "split the symbol at position k": resolve
both halves (uppercased) and join the identifiers with an underscore. -/
def splitPair (db : AssetDB) (symbol : String) (k : Nat) : Except GErr String := do
  let base_asset ← Asset db (strUpper (strTake symbol k))
  let quote_asset ← Asset db (strUpper (strDrop symbol k))
  pure (base_asset ++ "_" ++ quote_asset)

/-- QUERY_RETRY_TIMES (timing.py line 11). -/
def QUERY_RETRY_TIMES : Nat := 5

/-- GLOBAL_REQUESTS_TIMEOUT (timing.py line 5). -/
def GLOBAL_REQUESTS_TIMEOUT : Nat := 5

/-- CACHE_RESPONSE_FOR_SECS (timing.py line 16). -/
def CACHE_RESPONSE_FOR_SECS : Nat := 600

/-- HTTPStatus.TOO_MANY_REQUESTS. -/
def HTTP_TOO_MANY_REQUESTS : Nat := 429

/-- A transport response, reduced to the parts the retry loop inspects and
returns: (status code, an identifying payload).  The transport itself is a pure
function from the attempt index to the response of that attempt. -/
def Response : Type := Nat × Nat

/-- The while-loop of _query_continuously (gemini.py lines 157-192),
structurally recursive on retries_left.  Returns (the response the loop left
behind, number of request attempts issued, the sleep durations in seconds, in
order).  The sleep duration 429-branch is QUERY_RETRY_TIMES / retries_left with
Python float division, modelled exactly in the rationals. -/
def queryLoop (transport : Nat → Response) :
    Nat → Nat → List ℚ → Option Response → Option Response × Nat × List ℚ
  | 0, attempts, sleeps, last => (last, attempts, sleeps)
  | retries_left + 1, attempts, sleeps, _last =>
    let response := transport attempts
    if response.1 == HTTP_TOO_MANY_REQUESTS then
      queryLoop transport retries_left (attempts + 1)
        (sleeps ++ [(QUERY_RETRY_TIMES : ℚ) / ((retries_left : ℚ) + 1)])
        (some response)
    else
      (some response, attempts + 1, sleeps)

/-- Model of _query_continuously (gemini.py lines 143-192): run the retry loop with the
full budget.  Connection-level failures (RemoteError before a response exists)
abort the loop on the spot in the source and are outside this model, which
covers the case where every attempt produces a response. -/
def _query_continuously (transport : Nat → Response) : Option Response × Nat × List ℚ :=
  queryLoop transport QUERY_RETRY_TIMES 0 [] none

/-- The state of a Gemini client that first_connection touches:
the first_connection_made flag and the cached symbol list. -/
structure GeminiClient where
  first_connection_made : Bool
  symbols : List String
  deriving DecidableEq

/-- first_connection (gemini.py lines 106-112).  fetchSymbols stands for the
unauthenticated _public_api_query('symbols') call; the returned Nat counts how
many symbol-listing calls this invocation issued. -/
def first_connection (fetchSymbols : Except GErr (List String)) (c : GeminiClient) :
    Except GErr (GeminiClient × Nat) :=
  if c.first_connection_made then
    .ok (c, 0)
  else
    match fetchSymbols with
    | .error e => .error e
    | .ok syms => .ok ({ first_connection_made := true, symbols := syms }, 1)

/-- deserialize_asset_movement_category: deposit or withdrawal. -/
inductive MovementCategory where
  | deposit
  | withdrawal
  deriving DecidableEq

/-- A raw record of the transfers endpoint.  timestampms is a plain number
because _get_paginated_query dereferences it unconditionally (lines 372 and
383) before any record reaches normalization; the remaining fields go through
dict lookup plus a deserializer, which FieldR captures. -/
structure RawTransfer where
  timestampms : Nat
  type : FieldR MovementCategory
  destination : FieldR (Option String)
  txHash : Option String
  currency : FieldR String
  amount : FieldR ℚ
  eid : FieldR Nat
  deriving DecidableEq

/-- AssetMovement as built by query_online_deposits_withdrawals (location is
the constant Location.GEMINI and is omitted). -/
structure AssetMovement where
  category : MovementCategory
  address : Option String
  transaction_id : Option String
  timestamp : Nat
  asset : String
  amount : ℚ
  fee_asset : String
  fee : ℚ
  link : Nat
  deriving DecidableEq

/-- Modelled from the spec: deserialize_asset_amount_force_positive coerces the
parsed amount to a non-negative value (the deserializer is outside the two
source files). -/
def force_positive (q : ℚ) : ℚ := if q < 0 then -q else q

/-- The try-block body of the query_online_deposits_withdrawals loop
(gemini.py lines 488-505): one raw transfer to one AssetMovement, or the
exception it raises. -/
def normalizeMovement (db : AssetDB) (e : RawTransfer) : Except GErr AssetMovement := do
  let timestamp := e.timestampms / 1000
  let currency ← getField e.currency
  let asset ← Asset db currency
  let category ← getField e.type
  let address ← getField e.destination
  let amount ← getField e.amount
  let eid ← getField e.eid
  pure { category := category, address := address, transaction_id := e.txHash,
         timestamp := timestamp, asset := asset,
         amount := force_positive amount, fee_asset := asset, fee := 0,
         link := eid }

/-- The exception kinds the movements loop catches (lines 506-531):
UnknownAsset, UnsupportedAsset, DeserializationError and KeyError. -/
def skippableMovementErr : GErr → Bool
  | .unknownAsset _ => true
  | .unsupportedAsset _ => true
  | .deserializationError => true
  | .keyError => true
  | _ => false

/-- The for-loop of query_online_deposits_withdrawals (lines 487-533): append
each normalized movement, skip a record whose exception is caught, propagate
anything else. -/
def movementsLoopGo (db : AssetDB) : List RawTransfer → Except GErr (List AssetMovement)
  | [] => .ok []
  | e :: rest =>
    match normalizeMovement db e with
    | .ok m => do
      let ms ← movementsLoopGo db rest
      pure (m :: ms)
    | .error err =>
      if skippableMovementErr err then movementsLoopGo db rest else .error err

/-- deserialize_trade_type: buy or sell. -/
inductive TradeType where
  | buy
  | sell
  deriving DecidableEq

/-- A raw record of the mytrades endpoint.  As for RawTransfer, timestampms is
dereferenced by the pagination code before normalization, so it is a plain
number; the fields read inside the try-block go through FieldR. -/
structure RawTrade where
  timestampms : Nat
  timestamp : FieldR Nat
  type : FieldR TradeType
  amount : FieldR ℚ
  price : FieldR ℚ
  fee_amount : FieldR ℚ
  fee_currency : FieldR String
  tid : FieldR Nat
  deriving DecidableEq

/-- Trade as built by query_online_trade_history (location and the empty notes
field omitted). -/
structure Trade where
  timestamp : Nat
  pair : String
  trade_type : TradeType
  amount : ℚ
  rate : ℚ
  fee : ℚ
  fee_currency : String
  link : Nat
  deriving DecidableEq

/-- The try-block body of the query_online_trade_history loop (gemini.py lines
431-447): deserialize the timestamp, break out of the loop when it exceeds
end_ts (encoded as ok none), otherwise build the Trade in the source's
argument order, or raise. -/
def normalizeTradeStep (db : AssetDB) (symbol : String) (end_ts : Nat) (e : RawTrade) :
    Except GErr (Option Trade) := do
  let timestamp ← getField e.timestamp
  if end_ts < timestamp then
    pure none
  else do
    let pair ← gemini_symbol_to_pair db symbol
    let trade_type ← getField e.type
    let amount ← getField e.amount
    let rate ← getField e.price
    let fee ← getField e.fee_amount
    let fee_currency_raw ← getField e.fee_currency
    let fee_currency ← Asset db fee_currency_raw
    let tid ← getField e.tid
    pure (some { timestamp := timestamp, pair := pair, trade_type := trade_type,
                 amount := amount, rate := rate, fee := fee,
                 fee_currency := fee_currency, link := tid })

/-- The exception kinds the trades loop catches (lines 448-472):
UnprocessableTradePair, UnknownAsset, DeserializationError and KeyError —
UnsupportedAsset is absent from these except clauses. -/
def skippableTradeErr : GErr → Bool
  | .unprocessablePair _ => true
  | .unknownAsset _ => true
  | .deserializationError => true
  | .keyError => true
  | _ => false

/-- The inner for-loop of query_online_trade_history over one symbol's batch
(lines 430-472): append each normalized trade, stop at the first in-window
check failure (the break), skip a record whose exception is caught, propagate
anything else. -/
def tradesLoopGo (db : AssetDB) (symbol : String) (end_ts : Nat) :
    List RawTrade → Except GErr (List Trade)
  | [] => .ok []
  | e :: rest =>
    match normalizeTradeStep db symbol end_ts e with
    | .ok none => .ok []
    | .ok (some t) => do
      let ts ← tradesLoopGo db symbol end_ts rest
      pure (t :: ts)
    | .error err =>
      if skippableTradeErr err then tradesLoopGo db symbol end_ts rest else .error err

/-- A raw record of the balances endpoint. -/
structure RawBalance where
  amount : FieldR ℚ
  currency : FieldR String
  deriving DecidableEq

/-- Python dict insertion, with insertion-order-preserving overwrite. -/
def insertBal : List (String × ℚ × ℚ) → String → ℚ × ℚ → List (String × ℚ × ℚ)
  | [], k, v => [(k, v)]
  | (k', v') :: rest, k, v =>
    if k' = k then (k, v) :: rest else (k', v') :: insertBal rest k v

/-- One iteration of the query_balances loop (gemini.py lines 291-336): parse
the amount (DeserializationError/KeyError caught -> skip), skip zero amounts,
resolve the currency (UnknownAsset/UnsupportedAsset caught -> skip), look up
the USD price (RemoteError, i.e. oracle = none, caught -> skip); a surviving
entry maps the asset to (amount, amount * usd_price).  Each skip corresponds
to a notification in the source. -/
def balanceStep (db : AssetDB) (oracle : String → Option ℚ) (e : RawBalance) :
    Option (String × ℚ × ℚ) :=
  match getField e.amount with
  | .error _ => none
  | .ok amount =>
    if amount = 0 then none
    else
      match (do
        let currency ← getField e.currency
        Asset db currency : Except GErr String) with
      | .error _ => none
      | .ok asset =>
        match oracle asset with
        | none => none
        | some usd_price => some (asset, amount, amount * usd_price)

/-- The for-loop of query_balances over returned_balances (lines 290-336). -/
def balancesLoopGo (db : AssetDB) (oracle : String → Option ℚ) :
    List RawBalance → List (String × ℚ × ℚ) → List (String × ℚ × ℚ)
  | [], acc => acc
  | e :: rest, acc =>
    match balanceStep db oracle e with
    | none => balancesLoopGo db oracle rest acc
    | some (k, v) => balancesLoopGo db oracle rest (insertBal acc k v)

/-- query_balances (gemini.py lines 280-338), success path: the balances
list was fetched and each entry runs through the loop; returns the balance
map (as an insertion-ordered association list) and the empty message. -/
def query_balances (db : AssetDB) (oracle : String → Option ℚ)
    (entries : List RawBalance) : List (String × ℚ × ℚ) × String :=
  (balancesLoopGo db oracle entries [], "")

/-- The early-exit comparison of _get_paginated_query line 374:
int(last_ts_ms / 1000) > end_ts.  Python float division of these magnitudes
followed by int() truncation equals natural-number division. -/
def earlyExitCheck (last_ts_ms end_ts : Nat) : Bool :=
  decide (end_ts < last_ts_ms / 1000)

/-- The final-trim comparison of _get_paginated_query line 383:
(entry['timestampms'] / 1000) > end_ts with Python float division and no
truncation, modelled exactly in the rationals (mkRat t 1000 is the rational
t / 1000; floats compare identically at timestamp magnitudes). -/
def trimExcludes (timestampms end_ts : Nat) : Bool :=
  decide ((end_ts : ℚ) < mkRat timestampms 1000)

/-- The while-loop of _get_paginated_query (gemini.py lines 362-376).  tms
extracts the timestampms field, venue maps the current value of the timestamp
option (the cursor) to the page the exchange returns, fuel bounds the number
of iterations (the source loop has no such bound; none means the fuel ran
out, or — for the impossible case limit = 0 — the IndexError of
single_result[0] on an empty page).  The second component is a ghost trace of
the cursor value of each iteration, in order. -/
def pagLoop {α : Type} (tms : α → Nat) (venue : Nat → List α) (limit end_ts : Nat) :
    Nat → Nat → List α → List Nat → Option (List α) × List Nat
  | 0, _, _, trace => (none, trace)
  | fuel + 1, cursor, acc, trace =>
    let single_result := venue cursor
    let acc' := acc ++ single_result
    let trace' := trace ++ [cursor]
    if single_result.length < limit then
      (some acc', trace')
    else
      match single_result with
      | [] => (none, trace')
      | first :: _ =>
        let last_ts_ms := tms first
        if earlyExitCheck last_ts_ms end_ts then
          (some acc', trace')
        else
          pagLoop tms venue limit end_ts fuel (last_ts_ms + 1) acc' trace'

/-- Model of _get_paginated_query (gemini.py lines 340-387): seed the cursor with
start_ts, run the loop, reverse the accumulated result, and keep entries until
the first one past end_ts (the final for-loop breaks, so it is a takeWhile). -/
def _get_paginated_query {α : Type} (tms : α → Nat) (venue : Nat → List α)
    (limit start_ts end_ts fuel : Nat) : Option (List α) :=
  match (pagLoop tms venue limit end_ts fuel start_ts [] []).1 with
  | none => none
  | some result =>
    some (result.reverse.takeWhile (fun e => !(trimExcludes (tms e) end_ts)))

/-- query_online_deposits_withdrawals (gemini.py lines 476-535): one paginated
query of the transfers endpoint (limit 50, line 356) followed by the movements
loop.  none means the pagination loop ran out of fuel. -/
def query_online_deposits_withdrawals (db : AssetDB) (venue : Nat → List RawTransfer)
    (start_ts end_ts fuel : Nat) : Option (Except GErr (List AssetMovement)) :=
  match _get_paginated_query (fun e => e.timestampms) venue 50 start_ts end_ts fuel with
  | none => none
  | some result => some (movementsLoopGo db result)

/-- The per-symbol iteration of query_online_trade_history (gemini.py lines
424-474): a paginated mytrades query (limit 500, line 352) for each symbol
(transport and permission errors, which _get_trades_for_symbol turns into an
empty list, are not modelled — venue always yields pages), then the trades
loop; trades of successive symbols are appended in order, and an uncaught
normalization exception aborts the whole operation. -/
def tradesOverSymbols (db : AssetDB) (venue : String → Nat → List RawTrade)
    (start_ts end_ts fuel : Nat) : List String → Option (Except GErr (List Trade))
  | [] => some (.ok [])
  | symbol :: rest =>
    match _get_paginated_query (fun e => e.timestampms) (venue symbol) 500
        start_ts end_ts fuel with
    | none => none
    | some page =>
      match tradesLoopGo db symbol end_ts page with
      | .error e => some (.error e)
      | .ok ts =>
        match tradesOverSymbols db venue start_ts end_ts fuel rest with
        | none => none
        | some (.error e) => some (.error e)
        | some (.ok more) => some (.ok (ts ++ more))

/-- query_online_trade_history (gemini.py lines 414-474). -/
def query_online_trade_history (db : AssetDB) (venue : String → Nat → List RawTrade)
    (symbols : List String) (start_ts end_ts fuel : Nat) :
    Option (Except GErr (List Trade)) :=
  tradesOverSymbols db venue start_ts end_ts fuel symbols

/-! Helper lemmas shared by several claim theorems. -/

@[simp] theorem errBind {ε α β : Type} (e : ε) (f : α → Except ε β) :
    (Except.error e >>= f) = (Except.error e : Except ε β) := rfl

@[simp] theorem okBind {ε α β : Type} (a : α) (f : α → Except ε β) :
    (Except.ok a >>= f : Except ε β) = f a := rfl

@[simp] theorem errMap {ε α β : Type} (e : ε) (f : α → β) :
    (f <$> (Except.error e : Except ε α)) = (Except.error e : Except ε β) := rfl

@[simp] theorem okMap {ε α β : Type} (a : α) (f : α → β) :
    (f <$> (Except.ok a : Except ε α)) = Except.ok (f a) := rfl

@[simp] theorem pureExcept {ε α : Type} (a : α) :
    (pure a : Except ε α) = Except.ok a := rfl

/-- Unfolding lemma: getField gives ok exactly on a parsed field. -/
theorem getField_ok_iff {α : Type} (f : FieldR α) (v : α) :
    getField f = .ok v ↔ f = .ok v := by
  cases f <;> simp [getField]

/-- A movement produced by the normalizer has zero fee, absolute-value amount
and a truncated millisecond-to-second timestamp. -/
theorem normalizeMovement_fields (db : AssetDB) (e : RawTransfer) (m : AssetMovement)
    (h : normalizeMovement db e = .ok m) :
    m.fee = 0 ∧ 0 ≤ m.amount ∧ m.timestamp = e.timestampms / 1000 := by
  unfold normalizeMovement at h
  cases hcur : getField e.currency with
  | error err => simp [hcur] at h
  | ok currency =>
    cases hast : Asset db currency with
    | error err => simp [hcur, hast] at h
    | ok asset =>
      cases hty : getField e.type with
      | error err => simp [hcur, hast, hty] at h
      | ok category =>
        cases had : getField e.destination with
        | error err => simp [hcur, hast, hty, had] at h
        | ok address =>
          cases ham : getField e.amount with
          | error err => simp [hcur, hast, hty, had, ham] at h
          | ok amount =>
            cases hei : getField e.eid with
            | error err => simp [hcur, hast, hty, had, ham, hei] at h
            | ok eid =>
              simp [hcur, hast, hty, had, ham, hei] at h
              subst h
              refine ⟨rfl, ?_, rfl⟩
              unfold force_positive
              by_cases hq : amount < 0
              · rw [if_pos hq]; linarith
              · rw [if_neg hq]; linarith

/-- Every movement in a successful run of the movements loop comes from some
input record that normalizes to it. -/
theorem movementsLoopGo_mem (db : AssetDB) :
    ∀ l ms, movementsLoopGo db l = .ok ms →
      ∀ m ∈ ms, ∃ e ∈ l, normalizeMovement db e = .ok m := by
  intro l
  induction l with
  | nil =>
    intro ms h m hm
    simp [movementsLoopGo] at h
    subst h
    simp at hm
  | cons e rest ih =>
    intro ms h m hm
    unfold movementsLoopGo at h
    cases hn : normalizeMovement db e with
    | ok m0 =>
      rw [hn] at h
      cases hr : movementsLoopGo db rest with
      | error err => simp [hr, Except.bind] at h
      | ok ms0 =>
        simp [hr, Except.bind, pure, Except.pure] at h
        subst h
        rcases List.mem_cons.1 hm with hm0 | hmrest
        · exact ⟨e, List.mem_cons_self e rest, by rw [hn, hm0]⟩
        · rcases ih ms0 hr m hmrest with ⟨e', he', hne'⟩
          exact ⟨e', List.mem_cons_of_mem e he', hne'⟩
    | error err =>
      rw [hn] at h
      by_cases hs : skippableMovementErr err = true
      · simp only [hs, if_true] at h
        rcases ih ms h m hm with ⟨e', he', hne'⟩
        exact ⟨e', List.mem_cons_of_mem e he', hne'⟩
      · simp [hs] at h

/-! Concrete fixtures for witnesses and counterexamples. -/

instance {ε α : Type} [DecidableEq ε] [DecidableEq α] : DecidableEq (Except ε α) := fun a b =>
  match a, b with
  | .ok x, .ok y => if h : x = y then .isTrue (by rw [h]) else .isFalse (by simp [h])
  | .error x, .error y => if h : x = y then .isTrue (by rw [h]) else .isFalse (by simp [h])
  | .ok _, .error _ => .isFalse (by simp)
  | .error _, .ok _ => .isFalse (by simp)

/-- A registry where every identifier resolves, for concrete runs. -/
def dbAll : AssetDB := fun _ => .known

/-- A transfer record with the given millisecond timestamp and benign fields. -/
def mkTransfer (t : Nat) : RawTransfer where
  timestampms := t
  type := .ok .deposit
  destination := .ok none
  txHash := none
  currency := .ok "BTC"
  amount := .ok 1
  eid := .ok 1

/-- A price oracle that fails (RemoteError) exactly on ETH. -/
def oracleEthDown : String → Option ℚ := fun a => if a = "ETH" then none else some 2

/-! ## C8 -/

/-- C8: every movement returned by query_online_deposits_withdrawals has zero
fee and a non-negative amount, and every input record that normalizes
successfully yields its millisecond timestamp truncated to seconds. -/
theorem c8_movements_normalized (db : AssetDB) (venue : Nat → List RawTransfer)
    (start_ts end_ts fuel : Nat) (ms : List AssetMovement)
    (h : query_online_deposits_withdrawals db venue start_ts end_ts fuel = some (.ok ms)) :
    ∀ m ∈ ms, m.fee = 0 ∧ 0 ≤ m.amount ∧
      ∃ e, normalizeMovement db e = .ok m ∧ m.timestamp = e.timestampms / 1000 := by
  intro m hm
  unfold query_online_deposits_withdrawals at h
  cases hp : _get_paginated_query (fun e => e.timestampms) venue 50 start_ts end_ts fuel with
  | none => rw [hp] at h; cases h
  | some result =>
    rw [hp] at h
    simp only [Option.some.injEq] at h
    rcases movementsLoopGo_mem db result ms h m hm with ⟨e, _he, hne⟩
    rcases normalizeMovement_fields db e m hne with ⟨hf, ha, ht⟩
    exact ⟨hf, ha, e, hne, ht⟩

/-- C8 witness: a concrete run with one transfer at 7000 ms inside the window,
normalized with timestamp 7, zero fee and positive amount. -/
theorem c8_movements_normalized_witness :
    query_online_deposits_withdrawals dbAll (fun _ => [mkTransfer 7000]) 0 10 1 =
      some (.ok [{ category := .deposit, address := none, transaction_id := none,
                   timestamp := 7, asset := "BTC", amount := 1, fee_asset := "BTC",
                   fee := 0, link := 1 }]) ∧
    (1 : ℚ) ∈ ({1} : Set ℚ) ∧
    ∀ m ∈ [({ category := .deposit, address := none, transaction_id := none,
              timestamp := 7, asset := "BTC", amount := 1, fee_asset := "BTC",
              fee := 0, link := 1 } : AssetMovement)],
      m.fee = 0 ∧ 0 ≤ m.amount ∧
        ∃ e, normalizeMovement dbAll e = .ok m ∧ m.timestamp = e.timestampms / 1000 := by
  refine ⟨by decide, by simp, ?_⟩
  exact c8_movements_normalized dbAll (fun _ => [mkTransfer 7000]) 0 10 1 _ (by decide)

/-! ## C6 -/

/-- C6: with a transport that answers 429 to every attempt,
_query_continuously issues exactly QUERY_RETRY_TIMES = 5 request attempts,
sleeps QUERY_RETRY_TIMES / retries_left seconds after each 429 — the strictly
increasing sequence 1, 5/4, 5/3, 5/2, 5 — and returns the last (fifth)
response, whose status is still 429. -/
theorem c6_retry_exhaustion (transport : Nat → Response)
    (h : ∀ n, (transport n).1 = HTTP_TOO_MANY_REQUESTS) :
    _query_continuously transport =
      (some (transport 4), 5, [1, 5/4, 5/3, 5/2, 5]) ∧
    QUERY_RETRY_TIMES = 5 ∧ (transport 4).1 = 429 ∧
    List.Chain' (fun a b : ℚ => a < b) [1, 5/4, 5/3, 5/2, 5] := by
  refine ⟨?_, rfl, h 4, by norm_num⟩
  simp only [_query_continuously, QUERY_RETRY_TIMES, queryLoop, h, beq_self_eq_true, if_true,
    List.nil_append, List.append_assoc, List.singleton_append, List.cons_append]
  norm_num

/-- C6 witness: the constant-429 transport. -/
theorem c6_retry_exhaustion_witness :
    _query_continuously (fun n => (429, n)) =
      (some (429, 4), 5, [1, 5/4, 5/3, 5/2, 5]) ∧
    QUERY_RETRY_TIMES = 5 ∧ ((429, 4) : Response).1 = 429 ∧
    List.Chain' (fun a b : ℚ => a < b) [1, 5/4, 5/3, 5/2, 5] :=
  c6_retry_exhaustion (fun n => (429, n)) (fun _ => rfl)

/-! ## C7 -/

/-- C7: first_connection is idempotent — on an initialized client it is a
no-op issuing no symbol-listing call; on a fresh client it issues exactly one
call, caches the symbol list, sets the flag, and a second invocation issues
zero further calls. -/
theorem c7_first_connection_idempotent (fetch : Except GErr (List String))
    (c : GeminiClient) (v : List String) :
    (c.first_connection_made = true → first_connection fetch c = .ok (c, 0)) ∧
    (c.first_connection_made = false → fetch = .ok v →
      first_connection fetch c = .ok (⟨true, v⟩, 1) ∧
      first_connection fetch ⟨true, v⟩ = .ok (⟨true, v⟩, 0)) := by
  constructor
  · intro h
    simp [first_connection, h]
  · intro h hf
    constructor
    · simp [first_connection, h, hf]
    · simp [first_connection]

/-- C7 witness: two consecutive calls on a fresh client issue 1 + 0 = 1
symbol-listing calls. -/
theorem c7_first_connection_idempotent_witness :
    first_connection (.ok ["btcusd"]) ⟨false, []⟩ = .ok (⟨true, ["btcusd"]⟩, 1) ∧
    first_connection (.ok ["btcusd"]) ⟨true, ["btcusd"]⟩ = .ok (⟨true, ["btcusd"]⟩, 0) :=
  (c7_first_connection_idempotent (.ok ["btcusd"]) ⟨false, []⟩ ["btcusd"]).2 rfl rfl

/-! ## C9 -/

/-- An entry whose amount parses non-zero and whose currency resolves, but
whose USD price lookup fails (RemoteError), is skipped by the balance step. -/
theorem balanceStep_priceFail (db : AssetDB) (oracle : String → Option ℚ)
    (bad : RawBalance) (amt : ℚ) (a : String)
    (hamt : getField bad.amount = .ok amt) (hnz : ¬ amt = 0)
    (hres : (do
      let currency ← getField bad.currency
      Asset db currency : Except GErr String) = .ok a)
    (hprice : oracle a = none) :
    balanceStep db oracle bad = none := by
  unfold balanceStep
  simp only [hamt, if_neg hnz, hres, hprice]

/-- A successful balance step had a successful price lookup for its key. -/
theorem balanceStep_some_oracle (db : AssetDB) (oracle : String → Option ℚ)
    (e : RawBalance) (k : String) (v : ℚ × ℚ)
    (h : balanceStep db oracle e = some (k, v)) : ∃ q, oracle k = some q := by
  unfold balanceStep at h
  cases ha : getField e.amount with
  | error err => simp [ha] at h
  | ok amt =>
    simp only [ha] at h
    by_cases hz : amt = 0
    · simp [if_pos hz] at h
    · simp only [if_neg hz] at h
      cases hc : (do
          let currency ← getField e.currency
          Asset db currency : Except GErr String) with
      | error err => simp [hc] at h
      | ok asset =>
        simp only [hc] at h
        cases ho : oracle asset with
        | none => simp [ho] at h
        | some q =>
          simp only [ho, Option.some.injEq, Prod.mk.injEq] at h
          refine ⟨q, ?_⟩
          rw [← h.1]
          exact ho

/-- Keys of insertBal: the inserted key or an existing one. -/
theorem insertBal_mem (k : String) (v : ℚ × ℚ) :
    ∀ acc p, p ∈ insertBal acc k v → p.1 = k ∨ p ∈ acc := by
  intro acc
  induction acc with
  | nil =>
    intro p hp
    simp [insertBal] at hp
    left; rw [hp]
  | cons q rest ih =>
    intro p hp
    unfold insertBal at hp
    by_cases hk : q.1 = k
    · rw [if_pos hk] at hp
      rcases List.mem_cons.1 hp with h1 | h2
      · left; rw [h1]
      · right; exact List.mem_cons_of_mem q h2
    · rw [if_neg hk] at hp
      rcases List.mem_cons.1 hp with h1 | h2
      · right; rw [h1]; exact List.mem_cons_self q rest
      · rcases ih p h2 with h3 | h4
        · left; exact h3
        · right; exact List.mem_cons_of_mem q h4

/-- C9: a single balance entry whose USD price lookup fails with RemoteError
is skipped and the loop's result is as if that entry were absent; an asset
whose price lookup fails never appears as a key of the returned balance
map. -/
theorem c9_price_failure_skipped (db : AssetDB) (oracle : String → Option ℚ)
    (bad : RawBalance) (amt : ℚ) (a : String)
    (hamt : getField bad.amount = .ok amt) (hnz : ¬ amt = 0)
    (hres : (do
      let currency ← getField bad.currency
      Asset db currency : Except GErr String) = .ok a)
    (hprice : oracle a = none) :
    (∀ pre post acc, balancesLoopGo db oracle (pre ++ bad :: post) acc =
        balancesLoopGo db oracle (pre ++ post) acc) ∧
    (∀ entries acc, (∀ p ∈ acc, p.1 ≠ a) →
        ∀ p ∈ balancesLoopGo db oracle entries acc, p.1 ≠ a) := by
  constructor
  · intro pre
    induction pre with
    | nil =>
      intro post acc
      simp only [List.nil_append]
      conv_lhs => rw [balancesLoopGo]
      simp only [balanceStep_priceFail db oracle bad amt a hamt hnz hres hprice]
    | cons e pre ih =>
      intro post acc
      simp only [List.cons_append]
      rw [balancesLoopGo, balancesLoopGo]
      cases hs : balanceStep db oracle e with
      | none =>
        simp only [hs]
        exact ih post acc
      | some kv =>
        obtain ⟨k, v⟩ := kv
        simp only [hs]
        exact ih post (insertBal acc k v)
  · intro entries
    induction entries with
    | nil =>
      intro acc hacc p hp
      unfold balancesLoopGo at hp
      exact hacc p hp
    | cons e rest ih =>
      intro acc hacc p hp
      unfold balancesLoopGo at hp
      cases hs : balanceStep db oracle e with
      | none =>
        simp only [hs] at hp
        exact ih acc hacc p hp
      | some kv =>
        obtain ⟨k, v⟩ := kv
        simp only [hs] at hp
        refine ih (insertBal acc k v) ?_ p hp
        intro q hq
        rcases insertBal_mem k v acc q hq with h1 | h2
        · rw [h1]
          intro hk
          rcases balanceStep_some_oracle db oracle e k v hs with ⟨pr, hpr⟩
          rw [hk, hprice] at hpr
          cases hpr
        · exact hacc q h2

/-- C9 witness: oracle failing on ETH; the ETH entry is skipped, BTC and DOGE
survive. -/
theorem c9_price_failure_skipped_witness :
    balancesLoopGo dbAll oracleEthDown
        ([{ amount := .ok 2, currency := .ok "BTC" }] ++
          { amount := .ok 1, currency := .ok "ETH" } ::
          [{ amount := .ok 3, currency := .ok "DOGE" }]) [] =
      balancesLoopGo dbAll oracleEthDown
        ([{ amount := .ok 2, currency := .ok "BTC" }] ++
          [{ amount := .ok 3, currency := .ok "DOGE" }]) [] ∧
    (balancesLoopGo dbAll oracleEthDown
        [{ amount := .ok 2, currency := .ok "BTC" },
         { amount := .ok 1, currency := .ok "ETH" },
         { amount := .ok 3, currency := .ok "DOGE" }] []).map (fun p => p.1) =
      ["BTC", "DOGE"] := by
  constructor
  · exact (c9_price_failure_skipped dbAll oracleEthDown
      { amount := .ok 1, currency := .ok "ETH" } 1 "ETH"
      (by decide) (by norm_num) (by decide) (by decide)).1
      [{ amount := .ok 2, currency := .ok "BTC" }]
      [{ amount := .ok 3, currency := .ok "DOGE" }] []
  · decide

/-! ## C10 -/

/-- C10: the two end-of-window checks of _get_paginated_query disagree at
sub-second resolution — a millisecond timestamp exceeding end_ts * 1000 by 1
to 999 fails to trigger the truncating early-exit check yet is excluded by the
untruncated final trim; a timestamp of exactly end_ts * 1000 passes both and
such a record appears in the output. -/
theorem c10_subsecond_disagreement (tms end_ts : Nat)
    (hlo : 1000 * end_ts < tms) (hhi : tms < 1000 * end_ts + 1000) :
    (earlyExitCheck tms end_ts = false ∧ trimExcludes tms end_ts = true) ∧
    (∀ e : Nat, earlyExitCheck (1000 * e) e = false ∧ trimExcludes (1000 * e) e = false) ∧
    _get_paginated_query (fun x : RawTransfer => x.timestampms)
        (fun _ => [mkTransfer 7000]) 50 0 7 3 = some [mkTransfer 7000] := by
  refine ⟨⟨?_, ?_⟩, ?_, by decide⟩
  · unfold earlyExitCheck
    simp only [decide_eq_false_iff_not, not_lt]
    omega
  · unfold trimExcludes
    simp only [decide_eq_true_eq]
    rw [Rat.mkRat_eq_div]
    push_cast
    rw [lt_div_iff (by norm_num : (0:ℚ) < 1000)]
    exact_mod_cast (by omega : (end_ts * 1000 : ℕ) < tms)
  · intro e
    constructor
    · unfold earlyExitCheck
      simp only [decide_eq_false_iff_not, not_lt]
      omega
    · unfold trimExcludes
      simp only [decide_eq_false_iff_not, not_lt]
      rw [Rat.mkRat_eq_div]
      push_cast
      rw [div_le_iff (by norm_num : (0:ℚ) < 1000)]
      exact le_of_eq (by ring)

/-- C10 witness: end_ts = 7; 7500 ms is between the two checks. -/
theorem c10_subsecond_disagreement_witness :
    (1000 * 7 < 7500 ∧ 7500 < 1000 * 7 + 1000) ∧
    (earlyExitCheck 7500 7 = false ∧ trimExcludes 7500 7 = true) :=
  ⟨by omega, (c10_subsecond_disagreement 7500 7 (by omega) (by omega)).1⟩

/-! ## C2 -/

/-- A registry for 7-character symbols: ABCD, ABC and DEFG resolve, everything
else is unknown. -/
def dbSeven : AssetDB := fun s =>
  if s = "ABCD" then .known
  else if s = "ABC" then .known
  else if s = "DEFG" then .known
  else .unknown

/-- The length-7 branch of gemini_symbol_to_pair, folded through splitPair. -/
theorem gemini_seven_eq (db : AssetDB) (symbol : String) (h7 : symbol.length = 7) :
    gemini_symbol_to_pair db symbol =
      match splitPair db symbol 4 with
      | .ok p => .ok p
      | .error (.unknownAsset _) => splitPair db symbol 3
      | .error e => .error e := by
  unfold gemini_symbol_to_pair
  rw [h7]
  norm_num
  rfl

/-- C2 counterexample: with ABCD, ABC and DEFG known and EFG unknown, the
4-character prefix of abcdefg resolves, yet the result is the 3/4 split
ABC_DEFG, not the 4/3 split. -/
theorem c2_counterexample :
    dbSeven "ABCD" = .known ∧
    Asset dbSeven (strUpper (strTake "abcdefg" 4)) = .ok "ABCD" ∧
    gemini_symbol_to_pair dbSeven "abcdefg" = .ok "ABC_DEFG" := by decide

/-- C2 amended: for a 7-character symbol the 4/3 split is attempted first and
is the result when both its halves resolve; the fall back to the 3/4 split
happens exactly when the 4/3 attempt fails with UnknownAsset — from the
4-character prefix or from the 3-character suffix — so a resolving prefix with
an unknown suffix also falls back; an UnsupportedAsset failure propagates
without fallback. -/
theorem c2_seven_char_fallback (db : AssetDB) (symbol : String)
    (h7 : symbol.length = 7) :
    (∀ p, splitPair db symbol 4 = .ok p → gemini_symbol_to_pair db symbol = .ok p) ∧
    (∀ x, splitPair db symbol 4 = .error (.unknownAsset x) →
      gemini_symbol_to_pair db symbol = splitPair db symbol 3) ∧
    (∀ x, splitPair db symbol 4 = .error (.unsupportedAsset x) →
      gemini_symbol_to_pair db symbol = .error (.unsupportedAsset x)) ∧
    (db (strUpper (strTake symbol 4)) = .known →
     db (strUpper (strDrop symbol 4)) = .unknown →
      gemini_symbol_to_pair db symbol = splitPair db symbol 3) := by
  have hmain := gemini_seven_eq db symbol h7
  refine ⟨?_, ?_, ?_, ?_⟩
  · intro p hp
    rw [hmain, hp]
  · intro x hx
    rw [hmain, hx]
  · intro x hx
    rw [hmain, hx]
  · intro hpre hsuf
    have hx : splitPair db symbol 4 = .error (.unknownAsset (strUpper (strDrop symbol 4))) := by
      unfold splitPair Asset
      rw [hpre, hsuf]
      rfl
    rw [hmain, hx]

/-- C2 witness: abcdefg with dbSeven — the prefix resolves, the suffix does
not, and the fallback 3/4 split is taken. -/
theorem c2_seven_char_fallback_witness :
    ("abcdefg".length = 7) ∧
    gemini_symbol_to_pair dbSeven "abcdefg" = splitPair dbSeven "abcdefg" 3 :=
  ⟨by decide,
   (c2_seven_char_fallback dbSeven "abcdefg" (by decide)).2.2.2 (by decide) (by decide)⟩

/-! ## C3 -/

/-- A registry for the 8-character storj test: STOR, JUSD, STORJ and USD all
resolve. -/
def dbStorj : AssetDB := fun s =>
  if s = "STOR" then .known
  else if s = "JUSD" then .known
  else if s = "STORJ" then .known
  else if s = "USD" then .known
  else .unknown

/-- C3 counterexample: STORJUSD contains "storj" case-insensitively, but the
source's check ('storj' in symbol) is case-sensitive, so the symbol is split
4/4 into STOR_JUSD rather than 5/3 into STORJ_USD. -/
theorem c3_counterexample :
    strContains (strLower "STORJUSD") "storj" = true ∧
    "STORJUSD".length = 8 ∧
    strContains "STORJUSD" "storj" = false ∧
    gemini_symbol_to_pair dbStorj "STORJUSD" = .ok "STOR_JUSD" ∧
    splitPair dbStorj "STORJUSD" 5 = .ok "STORJ_USD" := by decide

/-- C3 amended: gemini_symbol_to_pair dispatches on length — 6 splits 3/3; 8
splits 5/3 when the symbol contains the literal (case-sensitive) substring
"storj" and 4/4 otherwise; any other length raises UnprocessableTradePair
carrying the original symbol. -/
theorem c3_length_dispatch (db : AssetDB) (s : String) :
    (s.length = 6 → gemini_symbol_to_pair db s = splitPair db s 3) ∧
    (s.length = 8 → strContains s "storj" = true →
      gemini_symbol_to_pair db s = splitPair db s 5) ∧
    (s.length = 8 → strContains s "storj" = false →
      gemini_symbol_to_pair db s = splitPair db s 4) ∧
    (s.length ≠ 6 → s.length ≠ 7 → s.length ≠ 8 →
      gemini_symbol_to_pair db s = .error (.unprocessablePair s)) := by
  refine ⟨?_, ?_, ?_, ?_⟩
  · intro h6
    unfold gemini_symbol_to_pair
    rw [h6]
    rfl
  · intro h8 hst
    unfold gemini_symbol_to_pair
    rw [h8, hst]
    rfl
  · intro h8 hst
    unfold gemini_symbol_to_pair
    rw [h8, hst]
    rfl
  · intro h6 h7 h8
    unfold gemini_symbol_to_pair
    simp [h6, h7, h8]

/-- C3 witness: btcusd is split 3/3; a 2-character symbol raises
UnprocessableTradePair carrying the symbol. -/
theorem c3_length_dispatch_witness :
    ("btcusd".length = 6) ∧
    gemini_symbol_to_pair dbAll "btcusd" = splitPair dbAll "btcusd" 3 ∧
    gemini_symbol_to_pair dbAll "ab" = .error (.unprocessablePair "ab") :=
  ⟨by decide, (c3_length_dispatch dbAll "btcusd").1 (by decide),
   (c3_length_dispatch dbAll "ab").2.2.2 (by decide) (by decide) (by decide)⟩

/-! ## C1 -/

/-- A batch of records that all normalize to in-window trades produces exactly
one trade per record. -/
theorem tradesLoopGo_all_ok (db : AssetDB) (symbol : String) (end_ts : Nat) :
    ∀ l, (∀ e ∈ l, ∃ t, normalizeTradeStep db symbol end_ts e = .ok (some t)) →
      ∃ ts, tradesLoopGo db symbol end_ts l = .ok ts ∧ ts.length = l.length := by
  intro l
  induction l with
  | nil =>
    intro _
    exact ⟨[], by rw [tradesLoopGo], rfl⟩
  | cons e rest ih =>
    intro h
    rcases h e (List.mem_cons_self e rest) with ⟨t, ht⟩
    rcases ih (fun x hx => h x (List.mem_cons_of_mem e hx)) with ⟨ts, hts, hlen⟩
    refine ⟨t :: ts, ?_, by simp [hlen]⟩
    rw [tradesLoopGo]
    simp [ht, hts]

/-- A record whose normalization raises one of the caught exception kinds is
skipped by the trades loop. -/
theorem tradesLoopGo_skip (db : AssetDB) (symbol : String) (end_ts : Nat)
    (bad : RawTrade) (err : GErr)
    (hbad : normalizeTradeStep db symbol end_ts bad = .error err)
    (hskip : skippableTradeErr err = true) :
    ∀ pre post, tradesLoopGo db symbol end_ts (pre ++ bad :: post) =
      tradesLoopGo db symbol end_ts (pre ++ post) := by
  intro pre
  induction pre with
  | nil =>
    intro post
    simp only [List.nil_append]
    rw [tradesLoopGo]
    simp [hbad, hskip]
  | cons e pre ih =>
    intro post
    simp only [List.cons_append]
    rw [tradesLoopGo, tradesLoopGo]
    cases hn : normalizeTradeStep db symbol end_ts e <;> simp [hn, ih post]

/-- A batch of records that all normalize produces exactly one movement per
record. -/
theorem movementsLoopGo_all_ok (db : AssetDB) :
    ∀ l, (∀ e ∈ l, ∃ m, normalizeMovement db e = .ok m) →
      ∃ ms, movementsLoopGo db l = .ok ms ∧ ms.length = l.length := by
  intro l
  induction l with
  | nil =>
    intro _
    exact ⟨[], by rw [movementsLoopGo], rfl⟩
  | cons e rest ih =>
    intro h
    rcases h e (List.mem_cons_self e rest) with ⟨m, hm⟩
    rcases ih (fun x hx => h x (List.mem_cons_of_mem e hx)) with ⟨ms, hms, hlen⟩
    refine ⟨m :: ms, ?_, by simp [hlen]⟩
    rw [movementsLoopGo]
    simp [hm, hms]

/-- A record whose normalization raises one of the caught exception kinds is
skipped by the movements loop. -/
theorem movementsLoopGo_skip (db : AssetDB) (bad : RawTransfer) (err : GErr)
    (hbad : normalizeMovement db bad = .error err)
    (hskip : skippableMovementErr err = true) :
    ∀ pre post, movementsLoopGo db (pre ++ bad :: post) =
      movementsLoopGo db (pre ++ post) := by
  intro pre
  induction pre with
  | nil =>
    intro post
    simp only [List.nil_append]
    rw [movementsLoopGo]
    simp [hbad, hskip]
  | cons e pre ih =>
    intro post
    simp only [List.cons_append]
    rw [movementsLoopGo, movementsLoopGo]
    cases hn : normalizeMovement db e <;> simp [hn, ih post]

/-- A balance entry on which the per-entry step yields nothing is skipped by
the balances loop. -/
theorem balancesLoopGo_skip (db : AssetDB) (oracle : String → Option ℚ)
    (bad : RawBalance) (hbad : balanceStep db oracle bad = none) :
    ∀ pre post acc, balancesLoopGo db oracle (pre ++ bad :: post) acc =
      balancesLoopGo db oracle (pre ++ post) acc := by
  intro pre
  induction pre with
  | nil =>
    intro post acc
    simp only [List.nil_append]
    conv_lhs => rw [balancesLoopGo]
    simp only [hbad]
  | cons e pre ih =>
    intro post acc
    simp only [List.cons_append]
    rw [balancesLoopGo, balancesLoopGo]
    cases hs : balanceStep db oracle e with
    | none =>
      simp only [hs]
      exact ih post acc
    | some kv =>
      obtain ⟨k, v⟩ := kv
      simp only [hs]
      exact ih post (insertBal acc k v)

/-- A registry where XXX is an unsupported asset and everything else
resolves. -/
def dbXxxUnsupported : AssetDB := fun s => if s = "XXX" then .unsupported else .known

/-- A trade record that normalizes cleanly. -/
def goodTrade : RawTrade where
  timestampms := 5000
  timestamp := .ok 5
  type := .ok .buy
  amount := .ok 1
  price := .ok 2
  fee_amount := .ok 0
  fee_currency := .ok "USD"
  tid := .ok 7

/-- A trade record whose fee currency is the unsupported asset XXX. -/
def badTrade : RawTrade where
  timestampms := 4000
  timestamp := .ok 4
  type := .ok .buy
  amount := .ok 1
  price := .ok 2
  fee_amount := .ok 0
  fee_currency := .ok "XXX"
  tid := .ok 8

/-- A trade record whose fee_currency key is missing (raises KeyError, which
the trades loop catches). -/
def missingFeeTrade : RawTrade where
  timestampms := 4000
  timestamp := .ok 4
  type := .ok .buy
  amount := .ok 1
  price := .ok 2
  fee_amount := .ok 0
  fee_currency := .missing
  tid := .ok 8

/-- C1 counterexample: a batch with one valid trade and one whose asset
resolution fails with UnsupportedAsset.  The trades loop of
query_online_trade_history does not catch UnsupportedAsset, so the exception
escapes and the valid record is not returned — the batch does not yield the
N = 1 valid records the claim promises. -/
theorem c1_counterexample :
    normalizeTradeStep dbXxxUnsupported "btcusd" 100 goodTrade =
      .ok (some { timestamp := 5, pair := "BTC_USD", trade_type := .buy, amount := 1,
                  rate := 2, fee := 0, fee_currency := "USD", link := 7 }) ∧
    tradesLoopGo dbXxxUnsupported "btcusd" 100 [badTrade, goodTrade] =
      .error (.unsupportedAsset "XXX") := by decide

/-- C1 amended: in each of the three normalization loops, a single record that
is malformed (DeserializationError / missing key), has an unknown asset, or —
for trades — has an unparseable trading pair, is skipped and the remaining N
valid records are all returned, with no exception escaping; unsupported-asset
records are likewise skipped by the balances and movements loops; the trades
loop, however, does not catch UnsupportedAsset (see the counterexample). -/
theorem c1_skip_on_error :
    (∀ db symbol end_ts pre post (bad : RawTrade) err,
      (∀ e ∈ pre ++ post, ∃ t, normalizeTradeStep db symbol end_ts e = .ok (some t)) →
      normalizeTradeStep db symbol end_ts bad = .error err →
      skippableTradeErr err = true →
      tradesLoopGo db symbol end_ts (pre ++ bad :: post) =
        tradesLoopGo db symbol end_ts (pre ++ post) ∧
      ∃ ts, tradesLoopGo db symbol end_ts (pre ++ post) = .ok ts ∧
        ts.length = (pre ++ post).length) ∧
    (∀ db pre post (bad : RawTransfer) err,
      (∀ e ∈ pre ++ post, ∃ m, normalizeMovement db e = .ok m) →
      normalizeMovement db bad = .error err →
      skippableMovementErr err = true →
      movementsLoopGo db (pre ++ bad :: post) = movementsLoopGo db (pre ++ post) ∧
      ∃ ms, movementsLoopGo db (pre ++ post) = .ok ms ∧
        ms.length = (pre ++ post).length) ∧
    (∀ db oracle pre post (bad : RawBalance) acc,
      balanceStep db oracle bad = none →
      balancesLoopGo db oracle (pre ++ bad :: post) acc =
        balancesLoopGo db oracle (pre ++ post) acc) := by
  refine ⟨?_, ?_, ?_⟩
  · intro db symbol end_ts pre post bad err hvalid hbad hskip
    exact ⟨tradesLoopGo_skip db symbol end_ts bad err hbad hskip pre post,
           tradesLoopGo_all_ok db symbol end_ts (pre ++ post) hvalid⟩
  · intro db pre post bad err hvalid hbad hskip
    exact ⟨movementsLoopGo_skip db bad err hbad hskip pre post,
           movementsLoopGo_all_ok db (pre ++ post) hvalid⟩
  · intro db oracle pre post bad acc hbad
    exact balancesLoopGo_skip db oracle bad hbad pre post acc

/-- C1 witness: one skippable bad trade (missing fee_currency key) among one
valid trade — the loop returns exactly the one valid trade. -/
theorem c1_skip_on_error_witness :
    (tradesLoopGo dbXxxUnsupported "btcusd" 100 ([] ++ missingFeeTrade :: [goodTrade]) =
      tradesLoopGo dbXxxUnsupported "btcusd" 100 ([] ++ [goodTrade]) ∧
     ∃ ts, tradesLoopGo dbXxxUnsupported "btcusd" 100 ([] ++ [goodTrade]) = .ok ts ∧
       ts.length = (([] : List RawTrade) ++ [goodTrade]).length) :=
  c1_skip_on_error.1 dbXxxUnsupported "btcusd" 100 [] [goodTrade] missingFeeTrade .keyError
    (fun e he => by
      simp only [List.nil_append, List.mem_singleton] at he
      subst he
      exact ⟨{ timestamp := 5, pair := "BTC_USD", trade_type := .buy, amount := 1,
               rate := 2, fee := 0, fee_currency := "USD", link := 7 }, by decide⟩)
    (by decide) (by decide)

/-! ## C4 -/

/-- Termination of the pagination loop for cursor-respecting venues: if every
full page's newest entry is at or after the queried cursor, fuel linear in
end_ts suffices. -/
theorem pagLoop_terminates {α : Type} (tms : α → Nat) (venue : Nat → List α)
    (limit end_ts : Nat) (hlim : 0 < limit)
    (hgood : ∀ c f rest, venue c = f :: rest → limit ≤ (f :: rest).length → c ≤ tms f) :
    ∀ fuel cursor acc trace, 1000 * end_ts + 1002 ≤ fuel + cursor → 1 ≤ fuel →
      ((pagLoop tms venue limit end_ts fuel cursor acc trace).1).isSome = true := by
  intro fuel
  induction fuel with
  | zero =>
    intro cursor acc trace hb h1
    omega
  | succ f ih =>
    intro cursor acc trace hb _h1
    rw [pagLoop]
    by_cases hlt : (venue cursor).length < limit
    · simp [hlt]
    · simp only [if_neg hlt]
      cases hv : venue cursor with
      | nil =>
        exfalso
        apply hlt
        rw [hv]
        simpa using hlim
      | cons first rest =>
        by_cases hee : earlyExitCheck (tms first) end_ts = true
        · simp [hee]
        · rw [Bool.not_eq_true] at hee
          simp only [hee, Bool.false_eq_true, if_false]
          have hfull : limit ≤ (first :: rest).length := by
            rw [hv] at hlt
            omega
          have hc : cursor ≤ tms first := hgood cursor first rest hv hfull
          have hte : tms first / 1000 ≤ end_ts := by
            have := hee
            unfold earlyExitCheck at this
            simpa [decide_eq_false_iff_not, not_lt] using this
          apply ih
          · omega
          · omega

/-- The ghost cursor trace of the pagination loop is strictly increasing for
cursor-respecting venues. -/
theorem pagLoop_trace_chain {α : Type} (tms : α → Nat) (venue : Nat → List α)
    (limit end_ts : Nat)
    (hgood : ∀ c f rest, venue c = f :: rest → limit ≤ (f :: rest).length → c ≤ tms f) :
    ∀ fuel cursor acc trace, List.Chain' (fun a b => a < b) (trace ++ [cursor]) →
      List.Chain' (fun a b => a < b)
        ((pagLoop tms venue limit end_ts fuel cursor acc trace).2) := by
  intro fuel
  induction fuel with
  | zero =>
    intro cursor acc trace h
    exact (List.chain'_append.1 h).1
  | succ f ih =>
    intro cursor acc trace h
    rw [pagLoop]
    by_cases hlt : (venue cursor).length < limit
    · simpa [hlt] using h
    · simp only [if_neg hlt]
      cases hv : venue cursor with
      | nil => simpa using h
      | cons first rest =>
        by_cases hee : earlyExitCheck (tms first) end_ts = true
        · simpa [hee] using h
        · rw [Bool.not_eq_true] at hee
          simp only [hee, Bool.false_eq_true, if_false]
          have hfull : limit ≤ (first :: rest).length := by
            rw [hv] at hlt
            omega
          have hc : cursor ≤ tms first := hgood cursor first rest hv hfull
          apply ih
          refine List.chain'_append.2 ⟨h, List.chain'_singleton _, ?_⟩
          intro x hx y hy
          rw [List.getLast?_concat] at hx
          simp only [List.head?_cons, Option.mem_def, Option.some.injEq] at hx hy
          omega

/-- A venue that answers every cursor with the same full page of 50
zero-timestamp transfers. -/
def stuckVenue : Nat → List RawTransfer := fun _ => List.replicate 50 (mkTransfer 0)

/-- Against stuckVenue the pagination loop consumes any amount of fuel without
terminating: the source while-loop runs forever. -/
theorem pagLoop_stuck : ∀ fuel cursor acc trace,
    (pagLoop (fun e : RawTransfer => e.timestampms) stuckVenue 50 0
      fuel cursor acc trace).1 = none := by
  intro fuel
  induction fuel with
  | zero =>
    intro cursor acc trace
    rw [pagLoop]
  | succ f ih =>
    intro cursor acc trace
    rw [pagLoop]
    have h1 : stuckVenue cursor = mkTransfer 0 :: List.replicate 49 (mkTransfer 0) := by
      simp [stuckVenue, List.replicate_succ]
    rw [h1]
    simp [mkTransfer, earlyExitCheck, ih]

/-- C4 counterexample: against the constant full-page venue the cursor trace
of three iterations is [0, 1, 1] — the cursor value 1 is revisited and the
trace is not strictly increasing — and fuel 1000 still ends with none (the
source loop does not terminate). -/
theorem c4_counterexample :
    (pagLoop (fun e : RawTransfer => e.timestampms) stuckVenue 50 0 3 0 [] []).2 =
      [0, 1, 1] ∧
    ¬ List.Chain' (fun a b => a < b)
        ((pagLoop (fun e : RawTransfer => e.timestampms) stuckVenue 50 0 3 0 [] []).2) ∧
    (pagLoop (fun e : RawTransfer => e.timestampms) stuckVenue 50 0 1000 0 [] []).1 =
      none := by
  have h1 : (pagLoop (fun e : RawTransfer => e.timestampms) stuckVenue 50 0 3 0 [] []).2 =
      [0, 1, 1] := by decide
  refine ⟨h1, ?_, pagLoop_stuck 1000 0 [] []⟩
  rw [h1]
  simp [List.chain'_cons]

/-- C4 amended: for venues whose full pages respect the cursor (the newest
entry of a full page is at or after the queried timestamp), the pagination
loop terminates within 1000 * end_ts + 1002 iterations and its cursor trace is
strictly increasing; for a venue that keeps repeating a full page the loop
never terminates and revisits cursor values. -/
theorem c4_pagination_termination {α : Type} (tms : α → Nat) (venue : Nat → List α)
    (limit end_ts : Nat) (hlim : 0 < limit)
    (hgood : ∀ c f rest, venue c = f :: rest → limit ≤ (f :: rest).length → c ≤ tms f) :
    (∀ start acc trace,
      ((pagLoop tms venue limit end_ts (1000 * end_ts + 1002) start acc trace).1).isSome
        = true) ∧
    (∀ fuel start acc,
      List.Chain' (fun a b => a < b) ((pagLoop tms venue limit end_ts fuel start acc []).2)) ∧
    (∀ fuel cursor acc trace,
      (pagLoop (fun e : RawTransfer => e.timestampms) stuckVenue 50 0
        fuel cursor acc trace).1 = none) := by
  refine ⟨?_, ?_, pagLoop_stuck⟩
  · intro start acc trace
    exact pagLoop_terminates tms venue limit end_ts hlim hgood
      (1000 * end_ts + 1002) start acc trace (by omega) (by omega)
  · intro fuel start acc
    exact pagLoop_trace_chain tms venue limit end_ts hgood fuel start acc [] (by simp)

/-- C4 witness: the empty venue satisfies the cursor-respecting hypothesis
vacuously; the loop terminates within the fuel bound and its trace is strictly
increasing. -/
theorem c4_pagination_termination_witness :
    ((pagLoop (fun e : RawTransfer => e.timestampms) (fun _ => []) 50 0
        (1000 * 0 + 1002) 0 [] []).1).isSome = true ∧
    List.Chain' (fun a b => a < b)
      ((pagLoop (fun e : RawTransfer => e.timestampms) (fun _ => []) 50 0 7 0 [] []).2) := by
  have h := c4_pagination_termination (fun e : RawTransfer => e.timestampms)
    (fun _ => []) 50 0 (by omega) (fun c f rest hv _ => by simp at hv)
  exact ⟨h.1 0 [] [], h.2.1 7 0 []⟩

/-! ## C5 -/

/-- The final trim keeps a record exactly when its millisecond timestamp is at
most end_ts * 1000. -/
theorem trimExcludes_false_iff (t e : Nat) : trimExcludes t e = false ↔ t ≤ e * 1000 := by
  unfold trimExcludes
  rw [decide_eq_false_iff_not, not_lt, Rat.mkRat_eq_div]
  rw [div_le_iff (by norm_num : (0:ℚ) < ((1000:ℕ):ℚ))]
  constructor
  · intro h
    exact_mod_cast h
  · intro h
    exact_mod_cast h

/-- Every record in the output of _get_paginated_query has millisecond
timestamp at most end_ts * 1000 — the upper half of the window. -/
theorem _get_paginated_query_upper {α : Type} (tms : α → Nat) (venue : Nat → List α)
    (limit start_ts end_ts fuel : Nat) (out : List α)
    (h : _get_paginated_query tms venue limit start_ts end_ts fuel = some out) :
    ∀ x ∈ out, tms x ≤ end_ts * 1000 := by
  unfold _get_paginated_query at h
  cases hp : (pagLoop tms venue limit end_ts fuel start_ts [] []).1 with
  | none => rw [hp] at h; cases h
  | some result =>
    simp only [hp, Option.some.injEq] at h
    subst h
    intro x hx
    have hw := List.mem_takeWhile_imp hx
    rw [Bool.not_eq_true'] at hw
    exact (trimExcludes_false_iff (tms x) end_ts).1 hw

/-- A normalized trade's timestamp passed the in-window check. -/
theorem normalizeTradeStep_some_le (db : AssetDB) (symbol : String) (end_ts : Nat)
    (e : RawTrade) (t : Trade)
    (h : normalizeTradeStep db symbol end_ts e = .ok (some t)) : t.timestamp ≤ end_ts := by
  unfold normalizeTradeStep at h
  cases ht0 : getField e.timestamp with
  | error err => simp [ht0] at h
  | ok ts0 =>
    simp only [ht0, okBind] at h
    by_cases hlt : end_ts < ts0
    · simp [hlt] at h
    · simp only [if_neg hlt] at h
      cases hpr : gemini_symbol_to_pair db symbol with
      | error err => simp [hpr] at h
      | ok pair =>
        cases hty : getField e.type with
        | error err => simp [hpr, hty] at h
        | ok ty =>
          cases ham : getField e.amount with
          | error err => simp [hpr, hty, ham] at h
          | ok am =>
            cases hra : getField e.price with
            | error err => simp [hpr, hty, ham, hra] at h
            | ok ra =>
              cases hfe : getField e.fee_amount with
              | error err => simp [hpr, hty, ham, hra, hfe] at h
              | ok fe =>
                cases hfc : getField e.fee_currency with
                | error err => simp [hpr, hty, ham, hra, hfe, hfc] at h
                | ok fc =>
                  cases hfa : Asset db fc with
                  | error err => simp [hpr, hty, ham, hra, hfe, hfc, hfa] at h
                  | ok fca =>
                    cases hti : getField e.tid with
                    | error err => simp [hpr, hty, ham, hra, hfe, hfc, hfa, hti] at h
                    | ok ti =>
                      simp only [hpr, hty, ham, hra, hfe, hfc, hfa, hti, okBind,
                        pureExcept, Except.ok.injEq, Option.some.injEq] at h
                      rw [← h]
                      exact not_lt.1 hlt

/-- Every trade in a successful run of the trades loop has timestamp at most
end_ts. -/
theorem tradesLoopGo_upper (db : AssetDB) (symbol : String) (end_ts : Nat) :
    ∀ l ts, tradesLoopGo db symbol end_ts l = .ok ts →
      ∀ t ∈ ts, t.timestamp ≤ end_ts := by
  intro l
  induction l with
  | nil =>
    intro ts h t ht
    rw [tradesLoopGo] at h
    cases h
    simp at ht
  | cons e rest ih =>
    intro ts h t ht
    rw [tradesLoopGo] at h
    cases hn : normalizeTradeStep db symbol end_ts e with
    | ok o =>
      cases o with
      | none =>
        simp only [hn] at h
        cases h
        simp at ht
      | some t0 =>
        simp only [hn, okBind] at h
        cases hr : tradesLoopGo db symbol end_ts rest with
        | error err => simp [hr] at h
        | ok ts1 =>
          simp only [hr, okBind, pureExcept, Except.ok.injEq] at h
          subst h
          rcases List.mem_cons.1 ht with h1 | h2
          · rw [h1]
            exact normalizeTradeStep_some_le db symbol end_ts e t0 hn
          · exact ih ts1 hr t h2
    | error err =>
      simp only [hn] at h
      by_cases hs : skippableTradeErr err = true
      · rw [if_pos hs] at h
        exact ih ts h t ht
      · rw [if_neg hs] at h
        cases h

/-- Every trade in a successful run over all symbols has timestamp at most
end_ts. -/
theorem tradesOverSymbols_upper (db : AssetDB) (venue : String → Nat → List RawTrade)
    (start_ts end_ts fuel : Nat) :
    ∀ symbols ts, tradesOverSymbols db venue start_ts end_ts fuel symbols = some (.ok ts) →
      ∀ t ∈ ts, t.timestamp ≤ end_ts := by
  intro symbols
  induction symbols with
  | nil =>
    intro ts h t ht
    rw [tradesOverSymbols] at h
    simp only [Option.some.injEq, Except.ok.injEq] at h
    subst h
    simp at ht
  | cons sym rest ih =>
    intro ts h t ht
    rw [tradesOverSymbols] at h
    cases hp : _get_paginated_query (fun e => e.timestampms) (venue sym) 500
        start_ts end_ts fuel with
    | none => simp [hp] at h
    | some page =>
      simp only [hp] at h
      cases hl : tradesLoopGo db sym end_ts page with
      | error err => simp [hl] at h
      | ok ts1 =>
        simp only [hl] at h
        cases hr : tradesOverSymbols db venue start_ts end_ts fuel rest with
        | none => simp [hr] at h
        | some r2 =>
          cases r2 with
          | error e2 => simp [hr] at h
          | ok more =>
            simp only [hr, Option.some.injEq, Except.ok.injEq] at h
            subst h
            rcases List.mem_append.1 ht with h1 | h2
            · exact tradesLoopGo_upper db sym end_ts page ts1 hl t h1
            · exact ih more hr t h2

/-- C5 amended: every record in the output of _get_paginated_query has
millisecond timestamp at most end_ts * 1000, every trade returned by
query_online_trade_history and every movement returned by
query_online_deposits_withdrawals has timestamp at most end_ts; the lower
bound start_ts and the oldest-first ordering are not enforced by the code (see
the counterexample). -/
theorem c5_window_filtering :
    (∀ (α : Type) (tms : α → Nat) (venue : Nat → List α) (limit start_ts end_ts fuel : Nat)
      (out : List α),
      _get_paginated_query tms venue limit start_ts end_ts fuel = some out →
      ∀ x ∈ out, tms x ≤ end_ts * 1000) ∧
    (∀ (db : AssetDB) (venue : String → Nat → List RawTrade) (symbols : List String)
      (start_ts end_ts fuel : Nat) (ts : List Trade),
      query_online_trade_history db venue symbols start_ts end_ts fuel = some (.ok ts) →
      ∀ t ∈ ts, t.timestamp ≤ end_ts) ∧
    (∀ (db : AssetDB) (venue : Nat → List RawTransfer) (start_ts end_ts fuel : Nat)
      (ms : List AssetMovement),
      query_online_deposits_withdrawals db venue start_ts end_ts fuel = some (.ok ms) →
      ∀ m ∈ ms, m.timestamp ≤ end_ts) := by
  refine ⟨?_, ?_, ?_⟩
  · intro α tms venue limit start_ts end_ts fuel out h
    exact _get_paginated_query_upper tms venue limit start_ts end_ts fuel out h
  · intro db venue symbols start_ts end_ts fuel ts h
    exact tradesOverSymbols_upper db venue start_ts end_ts fuel symbols ts h
  · intro db venue start_ts end_ts fuel ms h
    unfold query_online_deposits_withdrawals at h
    cases hp : _get_paginated_query (fun e => e.timestampms) venue 50
        start_ts end_ts fuel with
    | none => rw [hp] at h; cases h
    | some result =>
      simp only [hp, Option.some.injEq] at h
      intro m hm
      rcases movementsLoopGo_mem db result ms h m hm with ⟨x, hx, hnx⟩
      have h1 : x.timestampms ≤ end_ts * 1000 :=
        _get_paginated_query_upper (fun e => e.timestampms) venue 50
          start_ts end_ts fuel result hp x hx
      have h2 := (normalizeMovement_fields db x m hnx).2.2
      omega

/-- Venue for the C5 counterexample: the first (full) page holds a 20000-second
record and 49 records of 10000 seconds; the second page holds 40000- and
30000-second records.  All pages are newest-first as the venue sends them. -/
def venueC5 : Nat → List RawTransfer := fun c =>
  if c = 15000 then mkTransfer 20000000 :: List.replicate 49 (mkTransfer 10000000)
  else if c = 20000001 then [mkTransfer 40000000, mkTransfer 30000000]
  else []

/-- C5 counterexample: with start_ts = 15000 and end_ts = 1000000, the
returned movements have timestamps 30000, 40000, then forty-nine 10000s, then
20000 — records at 10000 seconds lie below start_ts, and the sequence is not
oldest-first. -/
theorem c5_counterexample :
    (query_online_deposits_withdrawals dbAll venueC5 15000 1000000 5).map
        (fun r => Except.map (fun ms => ms.map (fun m => m.timestamp)) r) =
      some (.ok ([30000, 40000] ++ List.replicate 49 10000 ++ [20000])) ∧
    10000 < 15000 ∧
    ¬ List.Chain' (fun a b : Nat => a ≤ b)
        ([30000, 40000] ++ List.replicate 49 10000 ++ [20000]) := by
  refine ⟨by decide, by omega, ?_⟩
  intro hch
  simp only [show (49 : Nat) = 48 + 1 from rfl, List.replicate_succ, List.cons_append,
    List.nil_append] at hch
  rw [List.chain'_cons, List.chain'_cons] at hch
  exact absurd hch.2.1 (by omega)

/-- The movement produced from a 7000 ms transfer. -/
def mv7 : AssetMovement where
  category := .deposit
  address := none
  transaction_id := none
  timestamp := 7
  asset := "BTC"
  amount := 1
  fee_asset := "BTC"
  fee := 0
  link := 1

/-- C5 witness: a single-record run — the record's millisecond timestamp obeys
the end_ts * 1000 bound and the movement's timestamp obeys end_ts. -/
theorem c5_window_filtering_witness :
    (mkTransfer 7000).timestampms ≤ 7 * 1000 ∧
    (∀ m ∈ [mv7], m.timestamp ≤ 7) :=
  ⟨c5_window_filtering.1 RawTransfer (fun e => e.timestampms) (fun _ => [mkTransfer 7000])
      50 0 7 3 [mkTransfer 7000] (by decide) (mkTransfer 7000) (by decide),
   c5_window_filtering.2.2 dbAll (fun _ => [mkTransfer 7000]) 0 7 1 [mv7] (by decide)⟩

end GeminiSpec
